import Mathlib

/-!
Verification of the `creator` package fragment `pdf/creator/chapters.go`
(the `Chapter` composite section of a PDF composition engine).

The Go source is shallowly embedded below.  Go conventions are mapped as
follows: `float64` sizes become `Rat` (only sums, maxima and comparisons of
sizes occur, never rounding); Go `int` becomes `Int` (page counters and
section numbers stay far from the 64-bit boundary, so wrap-around is not
modelled); a Go `error` result becomes `Option String` (`none` = nil error);
a possible runtime panic (out-of-range slice index) is the `none` case of an
outer `Option`; the `*TableOfContents` shared pointer held by each chapter
is modelled by threading the table-of-contents value in and out of
`Chapter.GeneratePageBlocks` explicitly; Go pointer identity is modelled by
a `ptr : Nat` field.  Collaborator types that live outside this file
(`paragraph`, `Block.mergeBlocks`, `TableOfContents.add`) are modelled from
the specification and marked as such.
-/

namespace UniDoc

/-- Modelled from the spec: a `Block` is an opaque page-scoped render
buffer; the only operation this core needs is merging a following block's
content into an existing one.  We model the buffer as a list of opaque
content tokens. -/
structure Block where
  content : List Nat
deriving Repr, DecidableEq

/-- Modelled from the spec: `mergeBlocks` absorbs the following block's
content into the receiver (same-page continuation). -/
def Block.mergeBlocks (b other : Block) : Block :=
  ⟨b.content ++ other.content⟩

/-- The draw context threaded through every pagination call.  The chapter
code reads and writes only `Page`; `Y` stands for the cursor state that the
real context also carries and that collaborators may update opaquely. -/
structure DrawContext where
  Page : Int
  Y : Rat
deriving Repr, DecidableEq

/-- The result triple of a Go `GeneratePageBlocks` call:
`([]*Block, DrawContext, error)`. -/
def GenResult : Type := List Block × DrawContext × Option String

/-- The pagination behavior of a content item: the content contract's
`GeneratePageBlocks(context) -> (blocks, updated context, error-or-none)`. -/
def GenFun : Type := DrawContext → GenResult

/-- Modelled from the spec: a table-of-contents entry
(title, number, indent level, page). -/
structure TocEntry where
  title : String
  number : Int
  level : Int
  page : Int
deriving Repr, DecidableEq

/-- Modelled from the spec: the section registry is an ordered sink of
entries. -/
structure TableOfContents where
  entries : List TocEntry
deriving Repr, DecidableEq

/-- Modelled from the spec: `add` appends one (title, number, level, page)
entry; fire-and-forget, never fails. -/
def TableOfContents.add (toc : TableOfContents) (title : String)
    (number level page : Int) : TableOfContents :=
  ⟨toc.entries ++ [⟨title, number, level, page⟩]⟩

/-- The font handle used by the heading paragraph. -/
inductive Font where
  | helvetica
  | other (name : String)
deriving Repr, DecidableEq

/-- Modelled from the spec: the `paragraph` collaborator, as far as this
core touches it — a text buffer with font settings plus its own pagination
behavior.  The pagination behavior itself is external and kept abstract as
a function field. -/
structure paragraph where
  text : String
  fontSize : Rat
  font : Font
  GeneratePageBlocks : GenFun

/-- Modelled from the spec: `NewParagraph` builds a paragraph holding the
given text; its rendering behavior `g` is supplied by the (external)
rendering engine. -/
def NewParagraph (text : String) (g : GenFun) : paragraph :=
  { text := text, fontSize := 0, font := .other "default", GeneratePageBlocks := g }

/-- Modelled from the spec: `SetText` regenerates the paragraph's text
buffer. -/
def paragraph.SetText (p : paragraph) (text : String) : paragraph :=
  { p with text := text }

/-- Modelled from the spec: `SetFontSize`. -/
def paragraph.SetFontSize (p : paragraph) (size : Rat) : paragraph :=
  { p with fontSize := size }

/-- Modelled from the spec: `SetFont`. -/
def paragraph.SetFont (p : paragraph) (f : Font) : paragraph :=
  { p with font := f }

/-- The dynamic kind of a `Drawable` interface value, as discriminated by
the type switch in `Chapter.Add`: the accepted kinds `*paragraph`,
`*image`, `*Block`, `*subchapter`, the rejected `*Chapter`, and any other
(unsupported) implementation. -/
inductive DKind where
  | chapterK
  | paragraphK
  | imageK
  | blockK
  | subchapterK
  | otherK
deriving Repr, DecidableEq

/-- A nested content item seen through the `Drawable` content contract:
its dynamic kind and identity (for `Add`'s checks), its reported sizes,
and its pagination behavior.  `ptr` models the Go pointer value of the
interface, so interface equality of two pointer-typed values is equality
of `kind` and `ptr`. -/
structure Drawable where
  kind : DKind
  ptr : Nat
  Height : Rat
  Width : Rat
  GeneratePageBlocks : GenFun

/-- Positioning mode: relative flow or absolute coordinates. -/
inductive positioning where
  | relative
  | absolute
deriving Repr, DecidableEq

/-- The four margin offsets. -/
structure margins where
  left : Rat
  right : Rat
  top : Rat
  bottom : Rat
deriving Repr, DecidableEq

/-- The sizing policy enumeration. -/
inductive Sizing where
  | occupyAvailableSpace
  | specifiedSize
deriving Repr, DecidableEq

/-- The `Chapter` struct of `chapters.go`.  The Go field `toc *TableOfContents`
(a shared pointer) is not stored here; the table of contents is threaded
through `GeneratePageBlocks` explicitly instead.  `ptr` models the address
of the chapter itself (used by `Add`'s self-reference check). -/
structure Chapter where
  ptr : Nat
  number : Int
  title : String
  heading : paragraph
  subchapters : Int
  contents : List Drawable
  showNumbering : Bool
  includeInTOC : Bool
  positioning : positioning
  xPos : Rat
  yPos : Rat
  margins : margins
  sizing : Sizing

/-- The `Creator` fields used by `NewChapter`: the running chapter counter
and the document's table of contents. -/
structure Creator where
  chapters : Int
  toc : TableOfContents

/-- `fmt.Sprintf("%d. %s", number, title)`: the numbered heading text. -/
def headingText (number : Int) (title : String) : String :=
  toString number ++ ". " ++ title

/-- `Creator.NewChapter`: bumps the creator's chapter counter, assigns the
next number, builds the heading paragraph `"{number}. {title}"` with font
size 16 and Helvetica, defaults both flags to true, and starts with empty
contents and the occupy-available-space sizing.  `ptr` models the address
of the freshly allocated chapter and `g` the heading's (external) rendering
behavior; the mutated creator is returned alongside the chapter. -/
def Creator.NewChapter (c : Creator) (title : String) (ptr : Nat) (g : GenFun) :
    Creator × Chapter :=
  let c' : Creator := { c with chapters := c.chapters + 1 }
  let p := ((NewParagraph (headingText c'.chapters title) g).SetFontSize 16).SetFont
    Font.helvetica
  (c',
    { ptr := ptr
      number := c'.chapters
      title := title
      heading := p
      subchapters := 0
      contents := []
      showNumbering := true
      includeInTOC := true
      positioning := .relative
      xPos := 0
      yPos := 0
      margins := ⟨0, 0, 0, 0⟩
      sizing := .occupyAvailableSpace })

/-- `Chapter.SetShowNumbering`: regenerates the heading text from the
current number and title, with or without the numeric prefix, and records
the flag. -/
def Chapter.SetShowNumbering (chap : Chapter) (showN : Bool) : Chapter :=
  if showN then
    { chap with
      heading := chap.heading.SetText (headingText chap.number chap.title)
      showNumbering := showN }
  else
    { chap with
      heading := chap.heading.SetText chap.title
      showNumbering := showN }

/-- `Chapter.SetIncludeInTOC`. -/
def Chapter.SetIncludeInTOC (chap : Chapter) (includeInTOC : Bool) : Chapter :=
  { chap with includeInTOC := includeInTOC }

/-- `Chapter.GetHeading`. -/
def Chapter.GetHeading (chap : Chapter) : paragraph :=
  chap.heading

/-- `Chapter.GetSizingMechanism`. -/
def Chapter.GetSizingMechanism (chap : Chapter) : Sizing :=
  chap.sizing

/-- `Chapter.Height`: the running sum `h += d.Height()` over the nested
contents (heading excluded). -/
def Chapter.Height (chap : Chapter) : Rat :=
  chap.contents.foldl (fun h d => h + d.Height) 0

/-- `Chapter.Width`: the running `maxW = math.Max(maxW, d.Width())` over
the nested contents, starting from 0. -/
def Chapter.Width (chap : Chapter) : Rat :=
  chap.contents.foldl (fun maxW d => max maxW d.Width) 0

/-- `Chapter.SetPos`. -/
def Chapter.SetPos (chap : Chapter) (x y : Rat) : Chapter :=
  { chap with positioning := .absolute, xPos := x, yPos := y }

/-- `Chapter.SetMargins`. -/
def Chapter.SetMargins (chap : Chapter) (left right top bottom : Rat) : Chapter :=
  { chap with margins := ⟨left, right, top, bottom⟩ }

/-- `Chapter.GetMargins`. -/
def Chapter.GetMargins (chap : Chapter) : Rat × Rat × Rat × Rat :=
  (chap.margins.left, chap.margins.right, chap.margins.top, chap.margins.bottom)

/-- `Chapter.Add`: rejects the chapter itself (`Drawable(chap) == d`,
i.e. a `*Chapter`-kinded value at the chapter's own address) and, via the
type switch, any other `*Chapter` and any unsupported kind — all are
logged no-ops; the accepted kinds are appended to `contents`. -/
def Chapter.Add (chap : Chapter) (d : Drawable) : Chapter :=
  if d.kind = DKind.chapterK ∧ d.ptr = chap.ptr then
    chap
  else
    match d.kind with
    | .chapterK => chap
    | .paragraphK | .imageK | .blockK | .subchapterK =>
        { chap with contents := chap.contents ++ [d] }
    | .otherK => chap

/-- The merge step `blocks[len(blocks)-1].mergeBlocks(newBlocks[0])`:
replace the last element of `blocks` by its merge with `b`; on an empty
list the Go index `len(blocks)-1` is out of range and panics, which is the
`none` case. -/
def mergeIntoLast (blocks : List Block) (b : Block) : Option (List Block) :=
  match blocks.getLast? with
  | none => none
  | some last => some (blocks.dropLast ++ [last.mergeBlocks b])

/-- The `for _, d := range chap.contents` loop of
`Chapter.GeneratePageBlocks`: on a collaborator error return the
accumulated blocks, the pre-item context and that error; skip items that
produced no blocks (keeping the context); otherwise merge the item's first
block into the last accumulated block, append the remaining blocks, and
adopt the item's context.  `none` is the out-of-range panic of the merge
step. -/
def genLoop : List Drawable → List Block → DrawContext →
    Option (List Block × DrawContext × Option String)
  | [], blocks, ctx => some (blocks, ctx, none)
  | d :: rest, blocks, ctx =>
    match d.GeneratePageBlocks ctx with
    | (_, _, some e) => some (blocks, ctx, some e)
    | ([], _, none) => genLoop rest blocks ctx
    | (nb0 :: nbRest, c, none) =>
      match mergeIntoLast blocks nb0 with
      | none => none
      | some merged => genLoop rest (merged ++ nbRest) c

/-- Step 2 of generation: `if len(blocks) > 1 { ctx.Page++ }` — the
post-heading page advance. -/
def postHeadingAdvance (blocks : List Block) (ctx : DrawContext) : DrawContext :=
  if blocks.length > 1 then { ctx with Page := ctx.Page + 1 } else ctx

/-- `Chapter.GeneratePageBlocks`: paginate the heading (propagating its
error), advance the page if the heading overflowed, record the TOC entry
when `includeInTOC`, then fold the nested contents with `genLoop`.  The
table of contents is passed in and out explicitly (it models the shared
`chap.toc` pointer); the outer `Option` is `none` exactly when the merge
step panics. -/
def Chapter.GeneratePageBlocks (chap : Chapter) (ctx : DrawContext)
    (toc : TableOfContents) :
    Option (List Block × DrawContext × Option String) × TableOfContents :=
  match chap.heading.GeneratePageBlocks ctx with
  | (blocks, ctx1, some e) => (some (blocks, ctx1, some e), toc)
  | (blocks, ctx1, none) =>
    let ctx2 := postHeadingAdvance blocks ctx1
    let toc2 :=
      if chap.includeInTOC then toc.add chap.title chap.number 0 ctx2.Page else toc
    (genLoop chap.contents blocks ctx2, toc2)

/-! ### Basic lemmas about the merge step and the content loop -/

/-- Merging into the last block of a nonempty list replaces exactly that
last block. -/
lemma mergeIntoLast_concat (bs : List Block) (last b : Block) :
    mergeIntoLast (bs ++ [last]) b = some (bs ++ [last.mergeBlocks b]) := by
  simp [mergeIntoLast]

/-- On a nonempty list the merge step succeeds. -/
lemma mergeIntoLast_isSome (blocks : List Block) (b : Block) (hne : blocks ≠ []) :
    ∃ merged, mergeIntoLast blocks b = some merged := by
  rcases List.eq_nil_or_concat blocks with rfl | ⟨bs, last, rfl⟩
  · exact absurd rfl hne
  · simp only [List.concat_eq_append]
    exact ⟨_, mergeIntoLast_concat bs last b⟩

/-- The merge step preserves the number of blocks. -/
lemma mergeIntoLast_length {blocks merged : List Block} {b : Block}
    (h : mergeIntoLast blocks b = some merged) : merged.length = blocks.length := by
  rcases List.eq_nil_or_concat blocks with rfl | ⟨bs, last, rfl⟩
  · simp [mergeIntoLast] at h
  · simp only [List.concat_eq_append] at h ⊢
    rw [mergeIntoLast_concat] at h
    cases h
    simp

/-- Unfolding `genLoop` on the empty list. -/
lemma genLoop_nil (blocks : List Block) (ctx : DrawContext) :
    genLoop [] blocks ctx = some (blocks, ctx, none) := rfl

/-- Unfolding `genLoop` when the head item errors. -/
lemma genLoop_cons_err {d : Drawable} {rest : List Drawable} {blocks : List Block}
    {ctx : DrawContext} {nb : List Block} {c : DrawContext} {e : String}
    (h : d.GeneratePageBlocks ctx = (nb, c, some e)) :
    genLoop (d :: rest) blocks ctx = some (blocks, ctx, some e) := by
  simp [genLoop, h]

/-- Unfolding `genLoop` when the head item yields no blocks. -/
lemma genLoop_cons_skip {d : Drawable} {rest : List Drawable} {blocks : List Block}
    {ctx : DrawContext} {c : DrawContext}
    (h : d.GeneratePageBlocks ctx = ([], c, none)) :
    genLoop (d :: rest) blocks ctx = genLoop rest blocks ctx := by
  simp [genLoop, h]

/-- Unfolding `genLoop` when the head item yields blocks and the merge
succeeds. -/
lemma genLoop_cons_merge {d : Drawable} {rest : List Drawable} {blocks : List Block}
    {ctx : DrawContext} {b0 : Block} {nbRest : List Block} {c : DrawContext}
    {merged : List Block}
    (h : d.GeneratePageBlocks ctx = (b0 :: nbRest, c, none))
    (hm : mergeIntoLast blocks b0 = some merged) :
    genLoop (d :: rest) blocks ctx = genLoop rest (merged ++ nbRest) c := by
  simp [genLoop, h, hm]

/-- Unfolding `genLoop` when the head item yields blocks but the
accumulated list is empty: the out-of-range panic. -/
lemma genLoop_cons_panic {d : Drawable} {rest : List Drawable} {blocks : List Block}
    {ctx : DrawContext} {b0 : Block} {nbRest : List Block} {c : DrawContext}
    (h : d.GeneratePageBlocks ctx = (b0 :: nbRest, c, none))
    (hm : mergeIntoLast blocks b0 = none) :
    genLoop (d :: rest) blocks ctx = none := by
  simp [genLoop, h, hm]

/-- A loop over `pre ++ suf` that runs `pre` without error continues as the
loop over `suf` from the state `pre` left behind. -/
lemma genLoop_append {pre : List Drawable} (suf : List Drawable) {blocks b' : List Block}
    {ctx c' : DrawContext}
    (h : genLoop pre blocks ctx = some (b', c', none)) :
    genLoop (pre ++ suf) blocks ctx = genLoop suf b' c' := by
  induction pre generalizing blocks ctx with
  | nil =>
    rw [genLoop_nil] at h
    simp only [Option.some.injEq, Prod.mk.injEq] at h
    obtain ⟨rfl, rfl, -⟩ := h
    rfl
  | cons d rest ih =>
    rcases hd : d.GeneratePageBlocks ctx with ⟨nb, c, eOpt⟩
    cases eOpt with
    | some e => rw [genLoop_cons_err hd] at h; simp at h
    | none =>
      cases nb with
      | nil =>
        rw [genLoop_cons_skip hd] at h
        rw [List.cons_append, genLoop_cons_skip hd]
        exact ih h
      | cons b0 nbRest =>
        cases hm : mergeIntoLast blocks b0 with
        | none => rw [genLoop_cons_panic hd hm] at h; cases h
        | some merged =>
          rw [genLoop_cons_merge hd hm] at h
          rw [List.cons_append, genLoop_cons_merge hd hm]
          exact ih h

/-- The accumulated block sequence never shrinks across the content loop. -/
lemma genLoop_length_mono {items : List Drawable} {blocks b' : List Block}
    {ctx c' : DrawContext} {e : Option String}
    (h : genLoop items blocks ctx = some (b', c', e)) :
    blocks.length ≤ b'.length := by
  induction items generalizing blocks ctx with
  | nil =>
    rw [genLoop_nil] at h
    simp only [Option.some.injEq, Prod.mk.injEq] at h
    obtain ⟨rfl, -, -⟩ := h
    exact le_refl _
  | cons d rest ih =>
    rcases hd : d.GeneratePageBlocks ctx with ⟨nb, c, eOpt⟩
    cases eOpt with
    | some e' =>
      rw [genLoop_cons_err hd] at h
      simp only [Option.some.injEq, Prod.mk.injEq] at h
      obtain ⟨rfl, -, -⟩ := h
      exact le_refl _
    | none =>
      cases nb with
      | nil =>
        rw [genLoop_cons_skip hd] at h
        exact ih h
      | cons b0 nbRest =>
        cases hm : mergeIntoLast blocks b0 with
        | none => rw [genLoop_cons_panic hd hm] at h; cases h
        | some merged =>
          rw [genLoop_cons_merge hd hm] at h
          have h1 := ih h
          have h2 := mergeIntoLast_length hm
          simp only [List.length_append] at h1
          omega

/-- The page counter never decreases across the content loop, provided no
item decreases it. -/
lemma genLoop_page_mono {items : List Drawable} {blocks b' : List Block}
    {ctx c' : DrawContext} {e : Option String}
    (hmono : ∀ d ∈ items, ∀ x : DrawContext, x.Page ≤ (d.GeneratePageBlocks x).2.1.Page)
    (h : genLoop items blocks ctx = some (b', c', e)) :
    ctx.Page ≤ c'.Page := by
  induction items generalizing blocks ctx with
  | nil =>
    rw [genLoop_nil] at h
    simp only [Option.some.injEq, Prod.mk.injEq] at h
    obtain ⟨-, rfl, -⟩ := h
    exact le_refl _
  | cons d rest ih =>
    rcases hd : d.GeneratePageBlocks ctx with ⟨nb, c, eOpt⟩
    cases eOpt with
    | some e' =>
      rw [genLoop_cons_err hd] at h
      simp only [Option.some.injEq, Prod.mk.injEq] at h
      obtain ⟨-, rfl, -⟩ := h
      exact le_refl _
    | none =>
      cases nb with
      | nil =>
        rw [genLoop_cons_skip hd] at h
        exact ih (fun d' hd' => hmono d' (List.mem_cons_of_mem _ hd')) h
      | cons b0 nbRest =>
        cases hm : mergeIntoLast blocks b0 with
        | none => rw [genLoop_cons_panic hd hm] at h; cases h
        | some merged =>
          rw [genLoop_cons_merge hd hm] at h
          have h1 : ctx.Page ≤ c.Page := by
            have := hmono d (List.mem_cons_self _ _) ctx
            rw [hd] at this
            simpa using this
          exact le_trans h1 (ih (fun d' hd' => hmono d' (List.mem_cons_of_mem _ hd')) h)

/-- The content loop never panics when the accumulated sequence starts
nonempty. -/
lemma genLoop_ne_none {items : List Drawable} {blocks : List Block} {ctx : DrawContext}
    (hne : blocks ≠ []) : genLoop items blocks ctx ≠ none := by
  induction items generalizing blocks ctx with
  | nil => rw [genLoop_nil]; simp
  | cons d rest ih =>
    rcases hd : d.GeneratePageBlocks ctx with ⟨nb, c, eOpt⟩
    cases eOpt with
    | some e => rw [genLoop_cons_err hd]; simp
    | none =>
      cases nb with
      | nil => rw [genLoop_cons_skip hd]; exact ih hne
      | cons b0 nbRest =>
        obtain ⟨merged, hm⟩ := mergeIntoLast_isSome blocks b0 hne
        rw [genLoop_cons_merge hd hm]
        apply ih
        intro hcontra
        have hl := mergeIntoLast_length hm
        have : 0 < blocks.length := List.length_pos.mpr hne
        rw [List.append_eq_nil] at hcontra
        rw [hcontra.1] at hl
        simp at hl
        omega

/-! ### Folds used by the size aggregation -/

/-- The running-sum fold of `Chapter.Height`, from any accumulator. -/
lemma foldl_add_height (l : List Drawable) (a : Rat) :
    l.foldl (fun h d => h + d.Height) a = a + (l.map (fun d => d.Height)).sum := by
  induction l generalizing a with
  | nil => simp
  | cons d tl ih => simp [ih, add_assoc]

/-- The running-max fold of `Chapter.Width` dominates its seed. -/
lemma foldl_max_init_le (l : List Drawable) (a : Rat) :
    a ≤ l.foldl (fun m d => max m d.Width) a := by
  induction l generalizing a with
  | nil => simp
  | cons d tl ih => exact le_trans (le_max_left _ _) (ih _)

/-- The running-max fold of `Chapter.Width` dominates every member. -/
lemma foldl_max_mem_le (l : List Drawable) (a : Rat) :
    ∀ d ∈ l, d.Width ≤ l.foldl (fun m d => max m d.Width) a := by
  induction l generalizing a with
  | nil => simp
  | cons x tl ih =>
    intro d hd
    rcases List.mem_cons.mp hd with rfl | hd'
    · exact le_trans (le_max_right _ _) (foldl_max_init_le tl _)
    · exact ih _ d hd'

/-- The running-max fold is either its seed or the width of some member. -/
lemma foldl_max_cases (l : List Drawable) (a : Rat) :
    l.foldl (fun m d => max m d.Width) a = a ∨
      ∃ d ∈ l, l.foldl (fun m d => max m d.Width) a = d.Width := by
  induction l generalizing a with
  | nil => left; rfl
  | cons x tl ih =>
    simp only [List.foldl_cons]
    rcases ih (max a x.Width) with h | ⟨d, hd, h⟩
    · rw [h]
      rcases le_total a x.Width with hle | hle
      · right
        exact ⟨x, List.mem_cons_self _ _, max_eq_right hle⟩
      · left
        exact max_eq_left hle
    · right
      exact ⟨d, List.mem_cons_of_mem _ hd, h⟩

/-! ### Concrete collaborators used as witnesses -/

/-- A starting draw context at page 0. -/
def ctx0 : DrawContext := ⟨0, 0⟩

/-- An empty table of contents. -/
def toc0 : TableOfContents := ⟨[]⟩

/-- A collaborator producing one page block and returning the context
unchanged. -/
def genOne : GenFun := fun ctx => ([⟨[10]⟩], ctx, none)

/-- A collaborator producing two page blocks (overflow) and returning the
context unchanged. -/
def genTwo : GenFun := fun ctx => ([⟨[20]⟩, ⟨[21]⟩], ctx, none)

/-- A collaborator producing no blocks. -/
def genZero : GenFun := fun ctx => ([], ctx, none)

/-- A failing collaborator. -/
def genFail : GenFun := fun ctx => ([], ctx, some "render failure")

/-- A heading paragraph at font size 16. -/
def sampleHeading (text : String) (g : GenFun) : paragraph :=
  ⟨text, 16, .helvetica, g⟩

/-- A chapter numbered 1 titled Intro, with the given heading behavior,
contents and include-in-TOC flag. -/
def sampleChapter (g : GenFun) (contents : List Drawable) (inc : Bool) : Chapter :=
  { ptr := 0, number := 1, title := "Intro",
    heading := sampleHeading "1. Intro" g,
    subchapters := 0, contents := contents,
    showNumbering := true, includeInTOC := inc,
    positioning := .relative, xPos := 0, yPos := 0,
    margins := ⟨0, 0, 0, 0⟩, sizing := .occupyAvailableSpace }

/-- A content item with the given kind, identity, sizes and behavior. -/
def dItem (k : DKind) (p : Nat) (h w : Rat) (g : GenFun) : Drawable :=
  ⟨k, p, h, w, g⟩

/-! ### The claims -/

/-- C1: when the heading generation succeeds with more than one block and
the heading generation itself preserves the page counter (the section, not
the heading, performs page advances), the context after the step-2
post-heading advance — the context `Chapter.GeneratePageBlocks` hands to
the TOC registration and the content loop — carries a page counter exactly
one greater than that of the incoming context. -/
theorem chapter_pageAdvance_after_heading_overflow
    (chap : Chapter) (ctx ctx1 : DrawContext) (blocks : List Block)
    (hgen : chap.heading.GeneratePageBlocks ctx = (blocks, ctx1, none))
    (hpage : ctx1.Page = ctx.Page)
    (hlen : blocks.length > 1) :
    (postHeadingAdvance blocks ctx1).Page = ctx.Page + 1 := by
  simp [postHeadingAdvance, hlen, hpage]

/-- Witness for C1 on a heading that overflows into two blocks. -/
theorem chapter_pageAdvance_after_heading_overflow_witness :
    (postHeadingAdvance [⟨[20]⟩, ⟨[21]⟩] ctx0).Page = ctx0.Page + 1 :=
  chapter_pageAdvance_after_heading_overflow (sampleChapter genTwo [] true) ctx0 ctx0
    [⟨[20]⟩, ⟨[21]⟩] rfl rfl (by decide)

/-- C2: when the heading generation succeeds, with include-in-registry on
the call appends exactly one registry entry — title, number, indent level
0, and the page of the post-heading-advance context computed before the
content loop runs; with the flag off the registry is returned untouched;
and the returned blocks and context do not depend on the flag at all. -/
theorem chapter_toc_registration
    (chap : Chapter) (ctx ctx1 : DrawContext) (toc : TableOfContents)
    (blocks : List Block)
    (hgen : chap.heading.GeneratePageBlocks ctx = (blocks, ctx1, none)) :
    (chap.includeInTOC = true →
      ((chap.GeneratePageBlocks ctx toc).2).entries
        = toc.entries
          ++ [⟨chap.title, chap.number, 0, (postHeadingAdvance blocks ctx1).Page⟩]) ∧
    (chap.includeInTOC = false → (chap.GeneratePageBlocks ctx toc).2 = toc) ∧
    ((chap.SetIncludeInTOC true).GeneratePageBlocks ctx toc).1
      = ((chap.SetIncludeInTOC false).GeneratePageBlocks ctx toc).1 := by
  refine ⟨?_, ?_, ?_⟩
  · intro hinc
    simp [Chapter.GeneratePageBlocks, hgen, hinc, TableOfContents.add]
  · intro hinc
    simp [Chapter.GeneratePageBlocks, hgen, hinc]
  · simp [Chapter.GeneratePageBlocks, Chapter.SetIncludeInTOC, hgen]

/-- Witness for C2 on a one-block heading: one entry at page 0 when the
flag is on, an untouched registry when it is off. -/
theorem chapter_toc_registration_witness :
    ((sampleChapter genOne [] true).GeneratePageBlocks ctx0 toc0).2.entries
        = toc0.entries ++ [⟨"Intro", 1, 0, (postHeadingAdvance [⟨[10]⟩] ctx0).Page⟩] ∧
    ((sampleChapter genOne [] false).GeneratePageBlocks ctx0 toc0).2 = toc0 :=
  ⟨(chapter_toc_registration (sampleChapter genOne [] true) ctx0 ctx0 toc0 [⟨[10]⟩]
      rfl).1 rfl,
   (chapter_toc_registration (sampleChapter genOne [] false) ctx0 ctx0 toc0 [⟨[10]⟩]
      rfl).2.1 rfl⟩

/-- C3: when a nested item fails after an error-free prefix of the
contents, the whole call returns exactly the blocks accumulated from the
heading and that prefix, the context as it stood before the failing item
(not the failing item's returned context), and the same error value; the
items after the failing one do not occur in the result. -/
theorem chapter_error_propagation
    (chap : Chapter) (ctx ctx1 cAcc c : DrawContext) (toc : TableOfContents)
    (blocks0 bAcc nb : List Block) (pre post : List Drawable) (d : Drawable)
    (e : String)
    (hgen : chap.heading.GeneratePageBlocks ctx = (blocks0, ctx1, none))
    (hcontents : chap.contents = pre ++ d :: post)
    (hpre : genLoop pre blocks0 (postHeadingAdvance blocks0 ctx1)
      = some (bAcc, cAcc, none))
    (herr : d.GeneratePageBlocks cAcc = (nb, c, some e)) :
    (chap.GeneratePageBlocks ctx toc).1 = some (bAcc, cAcc, some e) := by
  have hproj : (chap.GeneratePageBlocks ctx toc).1
      = genLoop chap.contents blocks0 (postHeadingAdvance blocks0 ctx1) := by
    simp [Chapter.GeneratePageBlocks, hgen]
  rw [hproj, hcontents, genLoop_append (d :: post) hpre, genLoop_cons_err herr]

/-- Witness for C3: a chapter whose single item fails returns the heading
block, the pre-item context and the item's error. -/
theorem chapter_error_propagation_witness :
    ((sampleChapter genOne [dItem .paragraphK 2 1 1 genFail] true).GeneratePageBlocks
        ctx0 toc0).1
      = some ([⟨[10]⟩], ctx0, some "render failure") :=
  chapter_error_propagation (sampleChapter genOne [dItem .paragraphK 2 1 1 genFail] true)
    ctx0 ctx0 ctx0 ctx0 toc0 [⟨[10]⟩] [⟨[10]⟩] [] [] []
    (dItem .paragraphK 2 1 1 genFail) "render failure" rfl rfl rfl rfl

/-- C4: one step of the content loop: an item that yields no blocks is
skipped and the context kept (its returned context is discarded); an item
that yields blocks has its first block merged into the last accumulated
block, its remaining blocks appended unchanged, and its returned context
adopted for the next item. -/
theorem chapter_content_item_step
    (d : Drawable) (rest : List Drawable) (blocks nb : List Block)
    (ctx c : DrawContext)
    (hok : d.GeneratePageBlocks ctx = (nb, c, none)) :
    (nb = [] → genLoop (d :: rest) blocks ctx = genLoop rest blocks ctx) ∧
    (∀ (b0 : Block) (nbRest bs : List Block) (last : Block),
      nb = b0 :: nbRest → blocks = bs ++ [last] →
      genLoop (d :: rest) blocks ctx
        = genLoop rest ((bs ++ [last.mergeBlocks b0]) ++ nbRest) c) := by
  constructor
  · intro hnil
    subst hnil
    exact genLoop_cons_skip hok
  · intro b0 nbRest bs last hnb hblocks
    subst hnb
    subst hblocks
    exact genLoop_cons_merge hok (mergeIntoLast_concat bs last b0)

/-- Witness for C4: a zero-block item is skipped; a one-block item is
merged into the last accumulated block with its context adopted. -/
theorem chapter_content_item_step_witness :
    genLoop [dItem .paragraphK 3 1 1 genZero] [⟨[0]⟩] ctx0 = genLoop [] [⟨[0]⟩] ctx0 ∧
    genLoop [dItem .paragraphK 4 1 1 genOne] [⟨[0]⟩] ctx0
      = genLoop [] (([] ++ [Block.mergeBlocks ⟨[0]⟩ ⟨[10]⟩]) ++ []) ctx0 :=
  ⟨(chapter_content_item_step (dItem .paragraphK 3 1 1 genZero) [] [⟨[0]⟩] []
      ctx0 ctx0 rfl).1 rfl,
   (chapter_content_item_step (dItem .paragraphK 4 1 1 genOne) [] [⟨[0]⟩] [⟨[10]⟩]
      ctx0 ctx0 rfl).2 ⟨[10]⟩ [] [] ⟨[0]⟩ rfl rfl⟩

/-- C5: assuming neither the heading nor any nested item decreases the
page counter of the context it returns, a completed (non-panicking) call
never decreases the page counter from the incoming to the returned
context; and across the content loop the accumulated block sequence never
shrinks. -/
theorem chapter_generate_invariants
    (chap : Chapter) (ctx : DrawContext) (toc : TableOfContents)
    (hmonoH : ∀ x : DrawContext, x.Page ≤ (chap.heading.GeneratePageBlocks x).2.1.Page)
    (hmono : ∀ d ∈ chap.contents, ∀ x : DrawContext,
      x.Page ≤ (d.GeneratePageBlocks x).2.1.Page) :
    (∀ (b' : List Block) (c' : DrawContext) (e : Option String),
      (chap.GeneratePageBlocks ctx toc).1 = some (b', c', e) → ctx.Page ≤ c'.Page) ∧
    (∀ (items : List Drawable) (blocks b' : List Block) (x c' : DrawContext)
        (e : Option String),
      genLoop items blocks x = some (b', c', e) → blocks.length ≤ b'.length) := by
  constructor
  · intro b' c' e hres
    rcases hgen : chap.heading.GeneratePageBlocks ctx with ⟨blocks, ctx1, eOpt⟩
    have hctx1 : ctx.Page ≤ ctx1.Page := by
      have h := hmonoH ctx
      rw [hgen] at h
      simpa using h
    cases eOpt with
    | some eh =>
      simp only [Chapter.GeneratePageBlocks, hgen] at hres
      simp only [Option.some.injEq, Prod.mk.injEq] at hres
      obtain ⟨-, rfl, -⟩ := hres
      exact hctx1
    | none =>
      simp only [Chapter.GeneratePageBlocks, hgen] at hres
      have h2 : ctx1.Page ≤ (postHeadingAdvance blocks ctx1).Page := by
        simp only [postHeadingAdvance]
        split
        · simp
        · exact le_refl _
      exact le_trans hctx1 (le_trans h2 (genLoop_page_mono hmono hres))
  · intro items blocks b' x c' e h
    exact genLoop_length_mono h

/-- Witness for C5 on a chapter with page-preserving collaborators. -/
theorem chapter_generate_invariants_witness :
    ctx0.Page ≤ ctx0.Page ∧
    ([⟨[10]⟩] : List Block).length ≤ ([⟨[10, 10]⟩] : List Block).length :=
  ⟨(chapter_generate_invariants
      (sampleChapter genOne [dItem .paragraphK 4 1 1 genOne] true) ctx0 toc0
      (fun x => le_refl x.Page)
      (by
        intro d hd x
        have hd' : d = dItem .paragraphK 4 1 1 genOne := by simpa [sampleChapter] using hd
        subst hd'
        exact le_refl x.Page)).1
    [⟨[10, 10]⟩] ctx0 none (by decide),
   (chapter_generate_invariants
      (sampleChapter genOne [dItem .paragraphK 4 1 1 genOne] true) ctx0 toc0
      (fun x => le_refl x.Page)
      (by
        intro d hd x
        have hd' : d = dItem .paragraphK 4 1 1 genOne := by simpa [sampleChapter] using hd
        subst hd'
        exact le_refl x.Page)).2
    [dItem .paragraphK 4 1 1 genOne] [⟨[10]⟩] [⟨[10, 10]⟩] ctx0 ctx0 none (by decide)⟩

/-- C6: `Add` appends an accepted kind (paragraph, image, pre-rendered
block, subchapter) at the end of the contents, preserving all previously
accepted items; it is a state-preserving no-op — with no error channel in
its signature at all — on the chapter itself (a chapter-kinded value,
whatever its address), on any other chapter, and on any unsupported
kind. -/
theorem chapter_add_validation (chap : Chapter) (d : Drawable) :
    ((d.kind = DKind.chapterK ∨ d.kind = DKind.otherK) → chap.Add d = chap) ∧
    ((d.kind = DKind.paragraphK ∨ d.kind = DKind.imageK ∨ d.kind = DKind.blockK ∨
        d.kind = DKind.subchapterK) →
      (chap.Add d).contents = chap.contents ++ [d]) := by
  constructor
  · intro hk
    rcases hk with hk | hk <;> simp [Chapter.Add, hk]
  · intro hk
    rcases hk with hk | hk | hk | hk <;> simp [Chapter.Add, hk]

/-- Witness for C6: a chapter-kinded value is rejected without change, a
paragraph-kinded value is appended. -/
theorem chapter_add_validation_witness :
    (sampleChapter genOne [] true).Add (dItem .chapterK 9 1 1 genOne)
        = sampleChapter genOne [] true ∧
    ((sampleChapter genOne [] true).Add (dItem .paragraphK 9 1 1 genOne)).contents
        = (sampleChapter genOne [] true).contents ++ [dItem .paragraphK 9 1 1 genOne] :=
  ⟨(chapter_add_validation (sampleChapter genOne [] true)
      (dItem .chapterK 9 1 1 genOne)).1 (Or.inl rfl),
   (chapter_add_validation (sampleChapter genOne [] true)
      (dItem .paragraphK 9 1 1 genOne)).2 (Or.inl rfl)⟩

/-- C7: the height is the sum of the nested content heights — the heading
plays no part, as replacing it changes nothing — and is untouched by both
flag setters; the width is zero on empty contents and, for nonnegative
item widths, is the maximum of the nested content widths. -/
theorem chapter_size_aggregation (chap : Chapter) (b1 b2 : Bool) (p : paragraph) :
    chap.Height = (chap.contents.map (fun d => d.Height)).sum ∧
    (chap.SetShowNumbering b1).Height = chap.Height ∧
    (chap.SetIncludeInTOC b2).Height = chap.Height ∧
    ({ chap with heading := p } : Chapter).Height = chap.Height ∧
    (chap.contents = [] → chap.Width = 0) ∧
    ((∀ d ∈ chap.contents, 0 ≤ d.Width) → chap.contents ≠ [] →
      (∃ d ∈ chap.contents, chap.Width = d.Width) ∧
        ∀ d ∈ chap.contents, d.Width ≤ chap.Width) := by
  refine ⟨?_, ?_, ?_, ?_, ?_, ?_⟩
  · show chap.contents.foldl (fun h d => h + d.Height) 0 = _
    rw [foldl_add_height]
    simp
  · cases b1 <;> rfl
  · rfl
  · rfl
  · intro h
    show chap.contents.foldl (fun m d => max m d.Width) 0 = 0
    rw [h]
    rfl
  · intro hnn hne
    constructor
    · rcases foldl_max_cases chap.contents 0 with h | ⟨d, hd, h⟩
      · obtain ⟨d0, hd0⟩ := List.exists_mem_of_ne_nil _ hne
        refine ⟨d0, hd0, le_antisymm ?_ ?_⟩
        · show chap.contents.foldl (fun m d => max m d.Width) 0 ≤ d0.Width
          rw [h]
          exact hnn d0 hd0
        · exact foldl_max_mem_le chap.contents 0 d0 hd0
      · exact ⟨d, hd, h⟩
    · intro d hd
      exact foldl_max_mem_le chap.contents 0 d hd

/-- Witness for C7 on a chapter with two items of heights 3 and 2 and
widths 4 and 7. -/
theorem chapter_size_aggregation_witness :
    (sampleChapter genOne
        [dItem .paragraphK 5 3 4 genOne, dItem .imageK 6 2 7 genZero] true).Height
      = ((sampleChapter genOne
          [dItem .paragraphK 5 3 4 genOne, dItem .imageK 6 2 7 genZero] true).contents.map
            (fun d => d.Height)).sum ∧
    (∃ d ∈ (sampleChapter genOne
        [dItem .paragraphK 5 3 4 genOne, dItem .imageK 6 2 7 genZero] true).contents,
      (sampleChapter genOne
        [dItem .paragraphK 5 3 4 genOne, dItem .imageK 6 2 7 genZero] true).Width
        = d.Width) :=
  ⟨(chapter_size_aggregation (sampleChapter genOne
        [dItem .paragraphK 5 3 4 genOne, dItem .imageK 6 2 7 genZero] true)
      true false (sampleHeading "x" genOne)).1,
   ((chapter_size_aggregation (sampleChapter genOne
        [dItem .paragraphK 5 3 4 genOne, dItem .imageK 6 2 7 genZero] true)
      true false (sampleHeading "x" genOne)).2.2.2.2.2
     (by
       intro d hd
       have hd' : d = dItem .paragraphK 5 3 4 genOne ∨ d = dItem .imageK 6 2 7 genZero := by
         simpa [sampleChapter] using hd
       rcases hd' with rfl | rfl <;> norm_num [dItem])
     (List.cons_ne_nil _ _)).1⟩

/-- C8: toggling show-numbering off and back on restores the constructor
heading text, which is the numbered text built from the assigned number
and the title; and after any toggle the heading text is exactly determined
by the number, the title and the flag. -/
theorem chapter_heading_text_deterministic
    (c : Creator) (title : String) (ptr : Nat) (g : GenFun) (chap : Chapter) (b : Bool) :
    (((c.NewChapter title ptr g).2.SetShowNumbering false).SetShowNumbering
        true).heading.text
      = (c.NewChapter title ptr g).2.heading.text ∧
    (c.NewChapter title ptr g).2.heading.text
      = headingText (c.NewChapter title ptr g).2.number title ∧
    (chap.SetShowNumbering b).heading.text
      = (if b then headingText chap.number chap.title else chap.title) :=
  ⟨rfl, rfl, by cases b <;> rfl⟩

/-- C9: when the heading generation succeeds with an empty block sequence
and, after an error-free prefix of items yielding nothing, some nested
item yields a block, the merge step indexes the last element of an empty
accumulated sequence — the out-of-range panic, modelled as the `none`
result; when the heading yields at least one block the call never reaches
that panic. -/
theorem chapter_merge_index_safety
    (chap : Chapter) (ctx : DrawContext) (toc : TableOfContents) :
    (∀ (ctx1 cAcc c : DrawContext) (pre post : List Drawable) (d : Drawable)
        (b0 : Block) (nbRest : List Block),
      chap.heading.GeneratePageBlocks ctx = ([], ctx1, none) →
      chap.contents = pre ++ d :: post →
      genLoop pre [] (postHeadingAdvance [] ctx1) = some ([], cAcc, none) →
      d.GeneratePageBlocks cAcc = (b0 :: nbRest, c, none) →
      (chap.GeneratePageBlocks ctx toc).1 = none) ∧
    (∀ (blocks : List Block) (ctx1 : DrawContext) (eOpt : Option String),
      chap.heading.GeneratePageBlocks ctx = (blocks, ctx1, eOpt) →
      blocks ≠ [] →
      (chap.GeneratePageBlocks ctx toc).1 ≠ none) := by
  constructor
  · intro ctx1 cAcc c pre post d b0 nbRest hgen hcontents hpre hd
    have hproj : (chap.GeneratePageBlocks ctx toc).1
        = genLoop chap.contents [] (postHeadingAdvance [] ctx1) := by
      simp [Chapter.GeneratePageBlocks, hgen]
    rw [hproj, hcontents, genLoop_append (d :: post) hpre,
      genLoop_cons_panic hd (show mergeIntoLast [] b0 = none from rfl)]
  · intro blocks ctx1 eOpt hgen hne
    cases eOpt with
    | some e => simp [Chapter.GeneratePageBlocks, hgen]
    | none =>
      have hproj : (chap.GeneratePageBlocks ctx toc).1
          = genLoop chap.contents blocks (postHeadingAdvance blocks ctx1) := by
        simp [Chapter.GeneratePageBlocks, hgen]
      rw [hproj]
      exact genLoop_ne_none hne

/-- Witness for C9: a zero-block heading followed by a one-block item
panics; a one-block heading with the same item does not. -/
theorem chapter_merge_index_safety_witness :
    ((sampleChapter genZero [dItem .paragraphK 7 1 1 genOne] true).GeneratePageBlocks
        ctx0 toc0).1 = none ∧
    ((sampleChapter genOne [dItem .paragraphK 7 1 1 genOne] true).GeneratePageBlocks
        ctx0 toc0).1 ≠ none :=
  ⟨(chapter_merge_index_safety
      (sampleChapter genZero [dItem .paragraphK 7 1 1 genOne] true) ctx0 toc0).1
    ctx0 ctx0 ctx0 [] [] (dItem .paragraphK 7 1 1 genOne) ⟨[10]⟩ []
    rfl rfl rfl rfl,
   (chapter_merge_index_safety
      (sampleChapter genOne [dItem .paragraphK 7 1 1 genOne] true) ctx0 toc0).2
    [⟨[10]⟩] ctx0 none rfl (List.cons_ne_nil _ _)⟩

/-- C10: with include-in-registry on and the heading generated, even a
call that later fails on a nested item leaves the registry holding exactly
the one freshly appended entry — the addition before the content loop is
not rolled back on error. -/
theorem chapter_toc_no_rollback
    (chap : Chapter) (ctx ctx1 c' : DrawContext) (toc : TableOfContents)
    (blocks b' : List Block) (e : String)
    (hinc : chap.includeInTOC = true)
    (hgen : chap.heading.GeneratePageBlocks ctx = (blocks, ctx1, none))
    (hres : (chap.GeneratePageBlocks ctx toc).1 = some (b', c', some e)) :
    ((chap.GeneratePageBlocks ctx toc).2).entries
      = toc.entries
        ++ [⟨chap.title, chap.number, 0, (postHeadingAdvance blocks ctx1).Page⟩] := by
  simp [Chapter.GeneratePageBlocks, hgen, hinc, TableOfContents.add]

/-- Witness for C10: the failing chapter of the C3 scenario still records
its entry at page 0. -/
theorem chapter_toc_no_rollback_witness :
    (((sampleChapter genOne [dItem .paragraphK 2 1 1 genFail] true).GeneratePageBlocks
        ctx0 toc0).2).entries
      = toc0.entries ++ [⟨"Intro", 1, 0, (postHeadingAdvance [⟨[10]⟩] ctx0).Page⟩] :=
  chapter_toc_no_rollback (sampleChapter genOne [dItem .paragraphK 2 1 1 genFail] true)
    ctx0 ctx0 ctx0 toc0 [⟨[10]⟩] [⟨[10]⟩] "render failure" rfl rfl (by decide)

end UniDoc
